import Mathlib

/-!
Verification of the log-portal tailing engine (`src/portal/portal.go`).

The development shallowly embeds the Go code: Go strings are `List Char`,
machine integers are `Int`, and the effectful parts (HTTP requests, the
filesystem, `os.Remove`, `os.Rename`, `io.Copy`) are modelled by explicit
environment records that record the outcome the outside world returns to
each call, so every function of the code becomes a pure Lean function of
its inputs and its environment.
-/

namespace LogPortal

/-- Go strings are embedded as lists of characters. -/
abbrev Str := List Char

/-- Embedding of Go `strings.Split(s, sep)` for a one-character separator:
`goSplit sep s` splits `s` at every occurrence of `sep`; on the empty
string it returns `[[]]`, exactly as `strings.Split("", sep)` returns
`[""]`. -/
def goSplit (sep : Char) : Str → List Str
  | [] => [[]]
  | c :: rest =>
    match goSplit sep rest with
    | [] => [[]]
    | s :: ss => if c = sep then [] :: s :: ss else (c :: s) :: ss

/-- Embedding of Go `strings.SplitN(s, sep, 2)` for a one-character
separator: split at the first occurrence of `sep` only, yielding one or
two fields. -/
def goSplitN2 (sep : Char) : Str → List Str
  | [] => [[]]
  | c :: rest =>
    if c = sep then [[], rest]
    else
      match goSplitN2 sep rest with
      | [] => [[c]]
      | s :: ss => (c :: s) :: ss

/-- Embedding of Go `strings.HasSuffix(s, suf)`. -/
def endsWith (s suf : Str) : Bool :=
  decide (suf.length ≤ s.length) && decide (s.drop (s.length - suf.length) = suf)

/-- The archive filename computed by `RotateFile` (portal.go lines
213-224): split the live filename at every dot; if that yields exactly two
fields keep the first one, otherwise keep the whole filename; then append
`-<timeStr>.log`. `timeStr` stands for
`time.Now().In(location).Format(timeLayout)`, the fixed-width
millisecond timestamp rendered in the fixed reference timezone. -/
def archiveName (filename timeStr : Str) : Str :=
  let fields := goSplit '.' filename
  let pre := if fields.length = 2 then fields.headD filename else filename
  pre ++ '-' :: (timeStr ++ ".log".data)

/-- The context `Clean` (portal.go lines 246-308) reads from the `Portal`
and from the ambient world: `parseTs` models
`time.ParseInLocation(timeLayout, s, location)` followed by `UnixMilli()`
(`none` when parsing fails), `nowMilli` models
`time.Now().In(location).UnixMilli()`, `lifetime` is `p.Lifetime` and
`live` is `p.filename`. -/
structure CleanCtx where
  parseTs : Str → Option Int
  nowMilli : Int
  lifetime : Int
  live : Str

/-- The `match` closure of `Clean` (portal.go lines 247-275): an entry name
matches when it splits at its first dash into two fields, the second field
ends in `.log`, the part before that suffix parses as a timestamp, and the
age `now - t` is not below `Lifetime` days in milliseconds. -/
def matchArchive (ctx : CleanCtx) (filename : Str) : Bool :=
  match goSplitN2 '-' filename with
  | [_, fn] =>
    if endsWith fn ".log".data then
      match ctx.parseTs (fn.take (fn.length - ".log".data.length)) with
      | none => false
      | some t =>
        if ctx.nowMilli - t < ctx.lifetime * 24 * 60 * 60 * 1000 then false
        else true
    else false
  | _ => false

/-- A directory tree as seen by `filepath.WalkDir`: entries carry their
base name (`d.Name()`), directories carry their child entries. -/
inductive Entry where
  | file (name : Str)
  | dir (name : Str) (children : List Entry)

/-- The walk performed by `Clean` (portal.go lines 278-301) over the
children of `p.Dir`, in `filepath.WalkDir` depth-first order: directory
entries are skipped, the live filename is skipped, non-matching names are
skipped, and every matching name is removed via `os.Remove(filename)`
with the bare name as the key. `removeOk` models the outcome of
`os.Remove`; a failing removal aborts the whole walk with an error
(`none`), exactly as a non-nil callback error stops `WalkDir`. On success
the list of removal keys is returned in visit order. -/
def walkList (ctx : CleanCtx) (removeOk : Str → Bool) : List Entry → Option (List Str)
  | [] => some []
  | .file n :: es =>
    if n = ctx.live then walkList ctx removeOk es
    else if matchArchive ctx n then
      if removeOk n then
        match walkList ctx removeOk es with
        | none => none
        | some b => some (n :: b)
      else none
    else walkList ctx removeOk es
  | .dir _ cs :: es =>
    match walkList ctx removeOk cs with
    | none => none
    | some a =>
      match walkList ctx removeOk es with
      | none => none
      | some b => some (a ++ b)

/-- All file base names of a tree, in depth-first visit order. -/
def filesOfList : List Entry → List Str
  | [] => []
  | .file n :: es => n :: filesOfList es
  | .dir _ cs :: es => filesOfList cs ++ filesOfList es

/-- The file base names of the immediate entries of the directory only. -/
def immediateFiles (es : List Entry) : List Str :=
  es.filterMap (fun e => match e with | .file n => some n | .dir _ _ => none)

/-- Embedding of `filepath.Join(dir, name)` for a non-empty `dir`. -/
def joinPath (dir n : Str) : Str := dir ++ '/' :: n

/-- The deletion decision of `Clean` for one file name: not the live file,
and matching the archive pattern with an expired timestamp. -/
def cleanPred (ctx : CleanCtx) (n : Str) : Bool :=
  !(n == ctx.live) && matchArchive ctx n

/-- The response to the HEAD probe, as handed back by `net/http`:
`declaredLen` is the declared content length carried by the response.
`ContentLength` on the Go response value is the declared length when one
is present and `-1` when the response carries none. -/
structure HeadResp where
  statusCode : Nat
  declaredLen : Option Int
deriving DecidableEq

/-- Models the `resp.ContentLength` field of `net/http`: the declared
length, or `-1` when the response carries no content length. -/
def respContentLength (r : HeadResp) : Int :=
  r.declaredLen.getD (-1)

/-- The world-side outcome of one `LogSize` call: whether
`http.NewRequest` failed, whether `client.Do` failed, and the response
otherwise. -/
structure HeadEnv where
  reqErr : Option String
  doErr : Option String
  resp : HeadResp
deriving DecidableEq

/-- Embedding of `LogSize` (portal.go lines 133-150): build a HEAD
request, execute it, reject any status other than 200, and otherwise
return `resp.ContentLength` unvalidated. -/
def logSize (e : HeadEnv) : Except String Int :=
  match e.reqErr with
  | some m => .error ("create new request: " ++ m)
  | none =>
    match e.doErr with
    | some m => .error ("http head: " ++ m)
    | none =>
      if e.resp.statusCode ≠ 200 then
        .error ("unexpected status code: " ++ toString e.resp.statusCode)
      else
        .ok (respContentLength e.resp)

/-- The world-side outcome of one ranged GET issued by
`FetchIncrContent`: request-building failure, transport failure, the
response status, the body bytes, and the outcome of `io.Copy` into the
composed writer (`copied` is what reached the writer before a copy
failure). -/
structure GetEnv where
  reqErr : Option String
  doErr : Option String
  statusCode : Nat
  body : List Nat
  copyErr : Option String
  copied : List Nat

/-- What one `FetchIncrContent` call produced: its result, the value of
the `Range` header set on the request (`none` when the request could not
be built), and the bytes that reached the composed writer. -/
structure FetchOut where
  result : Except String Unit
  rangeHeader : Option Str
  written : List Nat

/-- Embedding of `FetchIncrContent` (portal.go lines 175-198): build a GET
request, set `Range: bytes=<start>-<end-1>`, execute, reject any status
other than 206, and stream the body into the composed writer. -/
def fetchIncrContent (start stop : Int) (env : GetEnv) : FetchOut :=
  match env.reqErr with
  | some m => ⟨.error ("create new request: " ++ m), none, []⟩
  | none =>
    let hdr : Str := ("bytes=" ++ toString start ++ "-" ++ toString (stop - 1)).data
    match env.doErr with
    | some m => ⟨.error ("http get: " ++ m), some hdr, []⟩
    | none =>
      if env.statusCode ≠ 206 then
        ⟨.error ("unexpected status code: " ++ toString env.statusCode), some hdr, []⟩
      else
        match env.copyErr with
        | some m => ⟨.error ("copy response body: " ++ m), some hdr, env.copied⟩
        | none => ⟨.ok (), some hdr, env.body⟩

/-- The world-side outcomes consumed by one `initialFetch` call: the HEAD
probe and, when a ranged fetch is issued, its failure (`none` for a
successful fetch). -/
structure InitEnv where
  head : HeadEnv
  fetchErr : Option String

/-- What `initialFetch` produced: the `(int64, error)` pair it returns,
and the range it fetched, when it fetched one. -/
structure InitOut where
  result : Except String Int
  fetched : Option (Int × Int)

/-- Embedding of `initialFetch` (portal.go lines 152-173): probe the size;
on probe failure report the error; skip the fetch when the size is 0 or
below `Tail`; otherwise fetch `[S-Tail, S)` and return `S`. The portal's
`offset` field is not touched by this function. -/
def initialFetch (tail : Int) (env : InitEnv) : InitOut :=
  match logSize env.head with
  | .error m => ⟨.error ("get log size: " ++ m ++ "\n"), none⟩
  | .ok s =>
    if s = 0 then ⟨.ok 0, none⟩
    else if s < tail then ⟨.ok 0, none⟩
    else
      match env.fetchErr with
      | some m => ⟨.error m, some (s - tail, s)⟩
      | none => ⟨.ok s, some (s - tail, s)⟩

/-- The observable state of `Start` right before its first ticker
iteration: the portal's `offset` field, the local variable `currSize`,
and the line printed when the initial fetch failed. -/
structure StartInitOut where
  offset : Int
  currSize : Int
  logged : Option String

/-- Embedding of the pre-loop part of `Start` (portal.go lines 334-337):
`currSize, getErr = p.initialFetch()`; a failure is only printed. The
assignment targets the local `currSize`; `p.offset` keeps the value it
had when `Start` was entered. -/
def startInit (offset0 tail : Int) (env : InitEnv) : StartInitOut :=
  match (initialFetch tail env).result with
  | .ok s => ⟨offset0, s, none⟩
  | .error m => ⟨offset0, 0, some ("initial fetch: " ++ m)⟩

/-- The world-side outcomes consumed by one steady tick of `Start`: the
HEAD probe, the failure of the incremental fetch when one is issued, and
the failure of `RotateFile` when it is invoked (`none` for success). -/
structure TickEnv where
  head : HeadEnv
  fetchErr : Option String
  rotateErr : Option String

/-- What one steady tick of `Start` did: the portal's `offset` after the
tick, the range passed to `FetchIncrContent` when a fetch was issued, the
outcome of `RotateFile` when it was invoked (`some e` records the single
invocation and its error), and the line printed on a failure. -/
structure TickOut where
  offset : Int
  fetched : Option (Int × Int)
  rotateOutcome : Option (Option String)
  logged : Option String

/-- Embedding of one iteration of the ticker loop of `Start` (portal.go
lines 339-364): probe the size; on probe failure print and continue; when
`currSize > p.offset` fetch `[offset, currSize)` and commit the offset
only on success; when `currSize < p.offset` invoke `RotateFile` and set
the offset to 0 whatever `RotateFile` returned; otherwise do nothing. -/
def tick (off : Int) (env : TickEnv) : TickOut :=
  match logSize env.head with
  | .error m => ⟨off, none, none, some ("get log size: " ++ m)⟩
  | .ok s =>
    if off < s then
      match env.fetchErr with
      | some m => ⟨off, some (off, s), none, some ("fetch incremental content: " ++ m)⟩
      | none => ⟨s, some (off, s), none, none⟩
    else if s < off then
      ⟨0, none, some env.rotateErr, env.rotateErr.map (fun m => "rotate file: " ++ m)⟩
    else
      ⟨off, none, none, none⟩

/-- The world-side outcomes consumed by one `RotateFile` call: the
failures of `file.Sync`, `file.Close`, `os.Rename` and the reopening
`os.OpenFile`, each `none` on success. -/
structure RotateEnv where
  syncErr : Option String
  closeErr : Option String
  renameErr : Option String
  openErr : Option String

/-- What one `RotateFile` call did: its returned error, whether the live
file was renamed to the archive path, whether a fresh file was opened at
the original live path, and whether the fan-out writer was rebuilt. -/
structure RotateOut where
  result : Except String Unit
  renamed : Bool
  freshOpened : Bool
  writerRebuilt : Bool

/-- Embedding of `RotateFile` (portal.go lines 200-244): a no-op when the
file sink is disabled; otherwise sync, close, rename to the archive path,
reopen the live path in create+append mode and rebuild the multi-writer,
returning at the first failing step. -/
def rotateFile (filePortal : Bool) (env : RotateEnv) : RotateOut :=
  if filePortal = false then ⟨.ok (), false, false, false⟩
  else
    match env.syncErr with
    | some m => ⟨.error ("sync file: " ++ m), false, false, false⟩
    | none =>
      match env.closeErr with
      | some m => ⟨.error ("close file: " ++ m), false, false, false⟩
      | none =>
        match env.renameErr with
        | some m => ⟨.error ("rename file: " ++ m), false, false, false⟩
        | none =>
          match env.openErr with
          | some m => ⟨.error ("open new file: " ++ m), true, false, false⟩
          | none => ⟨.ok (), true, true, true⟩

/-- A concrete timestamp parse oracle for the examples. It agrees with
`time.ParseInLocation(timeLayout, s, location)` followed by `UnixMilli()`
on every string the examples probe: `2020-01-02T03-04-05.006` is a valid
instance of the layout `2006-01-02T15-04-05.000` and denotes, in the
fixed `Asia/Shanghai` timezone (UTC+8, so 2020-01-01T19:04:05.006Z),
Unix millisecond 1577905445006; the other probed strings are not
instances of the layout and fail to parse. -/
def parseRef : Str → Option Int :=
  fun s => if s = "2020-01-02T03-04-05.006".data then some 1577905445006 else none

/-- A concrete sweeper context for the examples: the clock reads
2020-01-05T03:04:05.006 +08:00 (Unix millisecond 1578164645006, exactly
three days after the archive timestamp above), `Lifetime` is 3 days, and
the live file is `live.log`. -/
def ctx0 : CleanCtx := ⟨parseRef, 1578164645006, 3, "live.log".data⟩

/-- A concrete archive name for the examples, shaped exactly like the
names `RotateFile` produces. -/
def nameArch : Str := "archive-2020-01-02T03-04-05.006.log".data

/-- A concrete mirror tree for the examples: one subdirectory holding one
expired archive. -/
def tree0 : List Entry := [.dir "sub".data [.file nameArch]]

/-- A successful HEAD probe carrying the given declared length. -/
def headOk (len : Int) : HeadEnv := ⟨none, none, ⟨200, some len⟩⟩

/-- A HEAD probe whose transport call failed. -/
def headFail : HeadEnv := ⟨none, some "connection refused", ⟨200, some 7⟩⟩

/-- An initial-fetch environment: probe says 100 bytes, the ranged fetch
succeeds. -/
def initEnv100 : InitEnv := ⟨headOk 100, none⟩

/-- A tick environment whose probe fails. -/
def envProbeFail : TickEnv := ⟨headFail, none, none⟩

/-- A tick environment for a shrunk remote: probe says 3 and the rotation
it triggers fails. -/
def envRot : TickEnv := ⟨headOk 3, none, some "disk full"⟩

/-- A rotate environment in which the rename step fails. -/
def rotEnvRenameFail : RotateEnv := ⟨none, none, some "permission denied", none⟩

/-- A rotate environment in which close fails (and rename would too). -/
def rotEnvCloseFail : RotateEnv := ⟨none, some "file already closed", some "x", none⟩

/-- A ranged GET answered with status 404. -/
def getEnv404 : GetEnv := ⟨none, none, 404, [], none, []⟩

theorem goSplit_no_sep (sep : Char) (s : Str) (h : sep ∉ s) : goSplit sep s = [s] := by
  induction s with
  | nil => rfl
  | cons c rest ih =>
    have hc : c ≠ sep := fun hc => h (hc ▸ List.mem_cons_self c rest)
    have hr : sep ∉ rest := fun hr => h (List.mem_cons_of_mem c hr)
    simp only [goSplit, ih hr]
    simp [hc]

theorem goSplit_two (sep : Char) (a b : Str) (ha : sep ∉ a) (hb : sep ∉ b) :
    goSplit sep (a ++ sep :: b) = [a, b] := by
  induction a with
  | nil => simp [goSplit, goSplit_no_sep sep b hb]
  | cons c rest ih =>
    have hc : c ≠ sep := fun hc => ha (hc ▸ List.mem_cons_self c rest)
    have hr : sep ∉ rest := fun hr => ha (List.mem_cons_of_mem c hr)
    simp only [List.cons_append, goSplit, List.append_eq]
    rw [ih hr]
    simp [hc]

theorem goSplit_not_nil (sep : Char) (s : Str) : goSplit sep s ≠ [] := by
  cases s with
  | nil => simp [goSplit]
  | cons c rest =>
    simp only [goSplit]
    cases goSplit sep rest with
    | nil => simp
    | cons a as => by_cases h : c = sep <;> simp [h]

theorem goSplit_sep_append (sep : Char) (a rest : Str) (ha : sep ∉ a) :
    goSplit sep (a ++ sep :: rest) = a :: goSplit sep rest := by
  induction a with
  | nil =>
    simp only [List.nil_append, goSplit]
    cases hg : goSplit sep rest with
    | nil => exact absurd hg (goSplit_not_nil sep rest)
    | cons s ss => simp
  | cons c tl ih =>
    have hc : c ≠ sep := fun hc => ha (hc ▸ List.mem_cons_self c tl)
    have hr : sep ∉ tl := fun hr => ha (List.mem_cons_of_mem c hr)
    simp only [List.cons_append, goSplit, List.append_eq]
    rw [ih hr]
    simp [hc]

theorem goSplit_three (sep : Char) (a b c : Str) (ha : sep ∉ a) (hb : sep ∉ b) (hc : sep ∉ c) :
    goSplit sep (a ++ sep :: (b ++ sep :: c)) = [a, b, c] := by
  rw [goSplit_sep_append sep a (b ++ sep :: c) ha, goSplit_two sep b c hb hc]

theorem walkList_eq (ctx : CleanCtx) : ∀ es : List Entry,
    walkList ctx (fun _ => true) es = some ((filesOfList es).filter (cleanPred ctx))
  | [] => by simp [walkList, filesOfList]
  | .file n :: es => by
    have ih := walkList_eq ctx es
    by_cases h : n = ctx.live
    · simp [walkList, filesOfList, ih, cleanPred, h]
    · by_cases hm : matchArchive ctx n
      · simp [walkList, filesOfList, ih, cleanPred, h, hm]
      · simp [walkList, filesOfList, ih, cleanPred, h, hm]
  | .dir d cs :: es => by
    have ih1 := walkList_eq ctx cs
    have ih2 := walkList_eq ctx es
    simp [walkList, filesOfList, ih1, ih2, List.filter_append]

theorem matchArchive_iff (ctx : CleanCtx) (n : Str) :
    matchArchive ctx n = true ↔
      ∃ a rest t, goSplitN2 '-' n = [a, rest] ∧
        endsWith rest ".log".data = true ∧
        ctx.parseTs (rest.take (rest.length - 4)) = some t ∧
        ¬ (ctx.nowMilli - t < ctx.lifetime * 24 * 60 * 60 * 1000) := by
  unfold matchArchive
  simp only [show ".log".data.length = 4 from rfl]
  rcases hsp : goSplitN2 '-' n with _ | ⟨a, _ | ⟨rest, _ | ⟨c, l⟩⟩⟩
  · simp [hsp]
  · simp [hsp]
  · by_cases he : endsWith rest ".log".data = true
    · rcases hp : ctx.parseTs (rest.take (rest.length - 4)) with _ | t
      · simp [he, hp]
      · by_cases hage : ctx.nowMilli - t < ctx.lifetime * 24 * 60 * 60 * 1000
        · simp [he, hp, hage]
        · exact iff_of_true (by simp [he, hp, hage]) ⟨a, rest, t, rfl, he, hp, hage⟩
    · simp [he]
  · simp

theorem walkList_skip (ctx : CleanCtx) (rm : Str → Bool) : ∀ es : List Entry,
    (∀ x ∈ filesOfList es, x = ctx.live ∨ matchArchive ctx x = false) →
    walkList ctx rm es = some []
  | [], _ => by simp [walkList]
  | .file n :: es, h => by
    have hn := h n (by simp [filesOfList])
    have ih := walkList_skip ctx rm es (fun x hx => h x (by simp [filesOfList, hx]))
    by_cases hl : n = ctx.live
    · simp [walkList, hl, ih]
    · rcases hn with h1 | h2
      · exact absurd h1 hl
      · simp [walkList, hl, h2, ih]
  | .dir d cs :: es, h => by
    have ih1 := walkList_skip ctx rm cs (fun x hx => h x (by simp [filesOfList, hx]))
    have ih2 := walkList_skip ctx rm es (fun x hx => h x (by simp [filesOfList, hx]))
    simp [walkList, ih1, ih2]

/-- C1 (code bug): with `Tail = 10` and a probed size of 100 the one-time
initial fetch does request the range `[90, 100)` and `initialFetch`
returns 100, but `Start` assigns that return only to the local variable
`currSize` and never to `p.offset`, so the offset is still 0 — not `S` —
when the first steady poll tick begins. -/
theorem initialFetch_offset_bug :
    (initialFetch 10 initEnv100).fetched = some (90, 100) ∧
    (initialFetch 10 initEnv100).result = .ok 100 ∧
    (startInit 0 10 initEnv100).offset = 0 ∧
    (startInit 0 10 initEnv100).currSize = 100 :=
  ⟨rfl, rfl, rfl, rfl⟩

/-- C2: on a steady tick, `RotateFile` is invoked exactly when the probed
size is strictly below the current offset, in which case the offset
becomes 0 whatever `RotateFile` returned; in every other case the offset
does not decrease — it stays put, or moves up to a successfully fetched
larger probed size. -/
theorem tick_offset_generation (off : Int) (env : TickEnv) :
    ((tick off env).rotateOutcome.isSome ↔ ∃ s, logSize env.head = .ok s ∧ s < off) ∧
    ((tick off env).rotateOutcome.isSome →
      (tick off env).rotateOutcome = some env.rotateErr ∧ (tick off env).offset = 0) ∧
    ((tick off env).rotateOutcome = none →
      (tick off env).offset = off ∨
      ∃ s, logSize env.head = .ok s ∧ off < s ∧ (tick off env).offset = s) := by
  rcases h : logSize env.head with m | s
  · simp [tick, h]
  · by_cases h1 : off < s
    · rcases hf : env.fetchErr with _ | m
      · refine ⟨?_, ?_, ?_⟩ <;> simp [tick, h, h1, hf]
        all_goals omega
      · refine ⟨?_, ?_, ?_⟩ <;> simp [tick, h, h1, hf]
        all_goals omega
    · by_cases h2 : s < off
      · refine ⟨?_, ?_, ?_⟩ <;> simp [tick, h, h1, h2]
      · refine ⟨?_, ?_, ?_⟩ <;> simp [tick, h, h1, h2]

/-- C2 witness: the generation property evaluated at offset 5 against a
probe of 3 whose triggered rotation fails. -/
theorem tick_offset_generation_w :
    (((tick 5 envRot).rotateOutcome.isSome ↔ ∃ s, logSize envRot.head = .ok s ∧ s < 5) ∧
      ((tick 5 envRot).rotateOutcome.isSome →
        (tick 5 envRot).rotateOutcome = some envRot.rotateErr ∧ (tick 5 envRot).offset = 0) ∧
      ((tick 5 envRot).rotateOutcome = none →
        (tick 5 envRot).offset = 5 ∨
        ∃ s, logSize envRot.head = .ok s ∧ 5 < s ∧ (tick 5 envRot).offset = s)) :=
  tick_offset_generation 5 envRot

/-- C6: a tick whose probe fails, or whose incremental fetch of
`[offset, S)` fails, leaves the offset exactly as it was and performs no
rotation. -/
theorem tick_failure_keeps_offset (off : Int) (env : TickEnv)
    (h : (∃ m, logSize env.head = .error m) ∨
         (∃ s, logSize env.head = .ok s ∧ off < s ∧ env.fetchErr ≠ none)) :
    (tick off env).offset = off ∧ (tick off env).rotateOutcome = none := by
  rcases h with ⟨m, hm⟩ | ⟨s, hs, h1, hf⟩
  · simp [tick, hm]
  · rcases henv : env.fetchErr with _ | m
    · exact absurd henv hf
    · simp [tick, hs, h1, henv]

/-- C6 witness: a tick at offset 5 whose HEAD probe dies on transport
keeps offset 5 and does not rotate. -/
theorem tick_failure_keeps_offset_w :
    (tick 5 envProbeFail).offset = 5 ∧ (tick 5 envProbeFail).rotateOutcome = none :=
  tick_failure_keeps_offset 5 envProbeFail (Or.inl ⟨_, rfl⟩)

/-- C10: a 200 probe response carrying no content length makes `LogSize`
return -1 with no error, and a steady tick that receives -1 while the
offset is non-negative takes the size-decrease branch: it invokes
`RotateFile` and resets the offset to 0. -/
theorem probe_no_length_triggers_rotation (off : Int) (fe re : Option String) (h : 0 ≤ off) :
    logSize ⟨none, none, ⟨200, none⟩⟩ = .ok (-1) ∧
    (tick off ⟨⟨none, none, ⟨200, none⟩⟩, fe, re⟩).rotateOutcome = some re ∧
    (tick off ⟨⟨none, none, ⟨200, none⟩⟩, fe, re⟩).offset = 0 := by
  have hls : logSize ⟨none, none, ⟨200, none⟩⟩ = .ok (-1) := rfl
  have h1 : ¬ (off < -1) := by omega
  have h2 : (-1 : Int) < off := by omega
  exact ⟨hls, by simp [tick, hls, h1, h2], by simp [tick, hls, h1, h2]⟩

/-- C10 witness: the no-content-length scenario evaluated at offset 0
with a succeeding rotation. -/
theorem probe_no_length_triggers_rotation_w :
    logSize ⟨none, none, ⟨200, none⟩⟩ = .ok (-1) ∧
    (tick 0 ⟨⟨none, none, ⟨200, none⟩⟩, none, none⟩).rotateOutcome = some none ∧
    (tick 0 ⟨⟨none, none, ⟨200, none⟩⟩, none, none⟩).offset = 0 :=
  probe_no_length_triggers_rotation 0 none none (by decide)

/-- C3 counterexample: a `RotateFile` call in which the rename of the
live file to the archive path fails returns that error immediately — no
fresh file is opened at the live path and the fan-out writer is not
rebuilt, contrary to the claim that every call (rename failure included)
ends with a fresh file and a rebuilt writer. -/
theorem rotateFile_rename_failure_no_reopen :
    (rotateFile true rotEnvRenameFail).freshOpened = false ∧
    (rotateFile true rotEnvRenameFail).writerRebuilt = false ∧
    (rotateFile true rotEnvRenameFail).result = .error "rename file: permission denied" :=
  ⟨rfl, rfl, rfl⟩

/-- C3 amended: with the file sink enabled, a `RotateFile` call ends with
a fresh file opened at the original live path and the fan-out writer
rebuilt exactly when sync, close, rename and the reopening all succeed;
when the rename fails, `RotateFile` returns an error and neither reopens
the live path nor rebuilds the writer. -/
theorem rotateFile_fresh_iff (env : RotateEnv) :
    (((rotateFile true env).freshOpened = true ∧ (rotateFile true env).writerRebuilt = true) ↔
      env.syncErr = none ∧ env.closeErr = none ∧ env.renameErr = none ∧ env.openErr = none) ∧
    (env.renameErr ≠ none →
      (rotateFile true env).freshOpened = false ∧
      (rotateFile true env).writerRebuilt = false ∧
      (rotateFile true env).result ≠ .ok ()) := by
  rcases env with ⟨s, c, r, o⟩
  rcases s with _ | m1 <;> rcases c with _ | m2 <;> rcases r with _ | m3 <;> rcases o with _ | m4 <;>
    simp [rotateFile]

/-- C3 amended witness: evaluated at an environment whose close and
rename steps fail; nothing is reopened and the result is an error. -/
theorem rotateFile_fresh_iff_w :
    (rotateFile true rotEnvCloseFail).freshOpened = false ∧
    (rotateFile true rotEnvCloseFail).writerRebuilt = false ∧
    (rotateFile true rotEnvCloseFail).result ≠ .ok () :=
  (rotateFile_fresh_iff rotEnvCloseFail).2 (by simp [rotEnvCloseFail])

/-- C7: `FetchIncrContent start end` sets the request header
`Range: bytes=<start>-<end-1>` whenever the request is built, returns an
error exactly when building or executing the request fails, the status is
not 206, or copying the body fails, and writes nothing to the sink on the
non-206 branch. -/
theorem fetchIncrContent_spec (start stop : Int) (env : GetEnv) :
    ((fetchIncrContent start stop env).result = .ok () ↔
      env.reqErr = none ∧ env.doErr = none ∧ env.statusCode = 206 ∧ env.copyErr = none) ∧
    (env.reqErr = none →
      (fetchIncrContent start stop env).rangeHeader =
        some (("bytes=" ++ toString start ++ "-" ++ toString (stop - 1)).data)) ∧
    (env.reqErr = none → env.doErr = none → env.statusCode ≠ 206 →
      (fetchIncrContent start stop env).written = []) := by
  rcases env with ⟨r, d, sc, b, ce, cp⟩
  rcases r with _ | m1 <;> rcases d with _ | m2 <;> rcases ce with _ | m3 <;>
    by_cases hsc : sc = 206 <;> simp [fetchIncrContent, hsc]

/-- C7 witness: a call `FetchIncrContent 10 20` answered with status 404
carries the header value `bytes=10-19`, fails, and writes nothing. -/
theorem fetchIncrContent_spec_w :
    ¬ (fetchIncrContent 10 20 getEnv404).result = .ok () ∧
    (fetchIncrContent 10 20 getEnv404).rangeHeader =
      some (("bytes=" ++ toString (10 : Int) ++ "-" ++ toString ((20 : Int) - 1)).data) ∧
    (fetchIncrContent 10 20 getEnv404).written = [] := by
  have h := fetchIncrContent_spec 10 20 getEnv404
  refine ⟨fun hc => ?_, h.2.1 rfl, h.2.2 rfl rfl (by decide)⟩
  have := (h.1.mp hc).2.2.1
  simp [getEnv404] at this

/-- C8: the archive name is `<prefix>-<timeStr>.log` where the prefix
strips the extension exactly when the live filename splits into exactly
two dot-separated fields, and is the whole live filename otherwise:
`access.log` yields `access-<T>.log`; any filename whose dot-split does
not have exactly two fields — a dot-free one (one field) as well as one
with two or more dots (three or more fields) — is kept whole; and in
general a two-field filename keeps only its first field. -/
theorem archiveName_spec :
    (∀ T : Str, archiveName "access.log".data T = "access".data ++ '-' :: (T ++ ".log".data)) ∧
    (∀ f T : Str, (goSplit '.' f).length ≠ 2 →
      archiveName f T = f ++ '-' :: (T ++ ".log".data)) ∧
    (∀ f T : Str, '.' ∉ f → archiveName f T = f ++ '-' :: (T ++ ".log".data)) ∧
    (∀ a b T : Str, '.' ∉ a → '.' ∉ b →
      archiveName (a ++ '.' :: b) T = a ++ '-' :: (T ++ ".log".data)) ∧
    (∀ a b c T : Str, '.' ∉ a → '.' ∉ b → '.' ∉ c →
      archiveName (a ++ '.' :: (b ++ '.' :: c)) T =
        (a ++ '.' :: (b ++ '.' :: c)) ++ '-' :: (T ++ ".log".data)) := by
  have key : ∀ f T : Str, (goSplit '.' f).length ≠ 2 →
      archiveName f T = f ++ '-' :: (T ++ ".log".data) := by
    intro f T h
    simp [archiveName, h]
  refine ⟨fun T => rfl, key, fun f T hf => ?_, fun a b T ha hb => ?_, fun a b c T ha hb hc => ?_⟩
  · exact key f T (by rw [goSplit_no_sep '.' f hf]; simp)
  · simp [archiveName, goSplit_two '.' a b ha hb]
  · exact key _ T (by rw [goSplit_three '.' a b c ha hb hc]; simp)

/-- C8 witness: the not-two-fields, dot-free, two-field and three-field
cases evaluated at concrete filenames and a concrete timestamp. -/
theorem archiveName_spec_w :
    archiveName "rotate.log.bak".data "2026-01-02T03-04-05.006".data =
      "rotate.log.bak".data ++ '-' :: ("2026-01-02T03-04-05.006".data ++ ".log".data) ∧
    archiveName "accesslog".data "2026-01-02T03-04-05.006".data =
      "accesslog".data ++ '-' :: ("2026-01-02T03-04-05.006".data ++ ".log".data) ∧
    archiveName ("access".data ++ '.' :: "log".data) "2026-01-02T03-04-05.006".data =
      "access".data ++ '-' :: ("2026-01-02T03-04-05.006".data ++ ".log".data) ∧
    archiveName ("a".data ++ '.' :: ("b".data ++ '.' :: "c".data)) "2026-01-02T03-04-05.006".data =
      ("a".data ++ '.' :: ("b".data ++ '.' :: "c".data)) ++ '-' ::
        ("2026-01-02T03-04-05.006".data ++ ".log".data) :=
  ⟨archiveName_spec.2.1 "rotate.log.bak".data _ (by decide),
   archiveName_spec.2.2.1 _ _ (by decide),
   archiveName_spec.2.2.2.1 "access".data "log".data _ (by decide) (by decide),
   archiveName_spec.2.2.2.2 "a".data "b".data "c".data _ (by decide) (by decide) (by decide)⟩

/-- C4 counterexample: `Clean` walks with `filepath.WalkDir`, which
descends into subdirectories: on a mirror directory whose only immediate
entry is a subdirectory holding one expired archive, the sweep deletes
that nested file even though it is not an immediate entry of the mirror
directory. -/
theorem clean_descends_into_subdirectory :
    walkList ctx0 (fun _ => true) tree0 = some [nameArch] ∧
    nameArch ∉ immediateFiles tree0 := by
  constructor
  · rw [walkList_eq]
    simp only [tree0, filesOfList]
    simp only [List.append_nil]
    decide
  · simp [immediateFiles, tree0]

/-- C4 amended: `Clean` examines every file of the mirror directory tree
recursively — entries of subdirectories included — deleting exactly the
matching expired names, and never deletes an entry whose name equals the
current live filename. -/
theorem clean_recursive_skips_live (ctx : CleanCtx) (tree : List Entry) :
    walkList ctx (fun _ => true) tree = some ((filesOfList tree).filter (cleanPred ctx)) ∧
    ctx.live ∉ (filesOfList tree).filter (cleanPred ctx) := by
  refine ⟨walkList_eq ctx tree, fun hmem => ?_⟩
  have := List.of_mem_filter hmem
  simp [cleanPred] at this

/-- C4 amended witness: evaluated on the concrete nested tree; the live
filename is not among the removals. -/
theorem clean_recursive_skips_live_w :
    walkList ctx0 (fun _ => true) tree0 = some ((filesOfList tree0).filter (cleanPred ctx0)) ∧
    ctx0.live ∉ (filesOfList tree0).filter (cleanPred ctx0) :=
  clean_recursive_skips_live ctx0 tree0

/-- C5: for any file name other than the live filename, `Clean` deletes
it exactly when it is in the tree, splits at its first dash, carries the
`.log` suffix, its timestamp part parses, and its age has reached
`Lifetime` days; and a sweep over a tree with no matching entry returns
no error and removes nothing, whatever `os.Remove` would have answered. -/
theorem clean_deletes_iff_expired (ctx : CleanCtx) (tree : List Entry) (n : Str)
    (hn : n ≠ ctx.live) :
    (∃ L, walkList ctx (fun _ => true) tree = some L ∧
      (n ∈ L ↔ n ∈ filesOfList tree ∧ ∃ a rest t,
        goSplitN2 '-' n = [a, rest] ∧
        endsWith rest ".log".data = true ∧
        ctx.parseTs (rest.take (rest.length - 4)) = some t ∧
        ¬ (ctx.nowMilli - t < ctx.lifetime * 24 * 60 * 60 * 1000))) ∧
    (∀ rm : Str → Bool, (∀ x ∈ filesOfList tree, x = ctx.live ∨ matchArchive ctx x = false) →
      walkList ctx rm tree = some []) := by
  constructor
  · refine ⟨_, walkList_eq ctx tree, ?_⟩
    rw [List.mem_filter]
    simp [cleanPred, hn, matchArchive_iff]
  · exact fun rm h => walkList_skip ctx rm tree h

/-- C5 witness: the deletion characterization evaluated at the concrete
archive name `archive-2020-01-02T03-04-05.006.log` in the concrete
nested tree. -/
theorem clean_deletes_iff_expired_w :
    (∃ L, walkList ctx0 (fun _ => true) tree0 = some L ∧
      (nameArch ∈ L ↔ nameArch ∈ filesOfList tree0 ∧ ∃ a rest t,
        goSplitN2 '-' nameArch = [a, rest] ∧
        endsWith rest ".log".data = true ∧
        ctx0.parseTs (rest.take (rest.length - 4)) = some t ∧
        ¬ (ctx0.nowMilli - t < ctx0.lifetime * 24 * 60 * 60 * 1000))) ∧
    (∀ rm : Str → Bool, (∀ x ∈ filesOfList tree0, x = ctx0.live ∨ matchArchive ctx0 x = false) →
      walkList ctx0 rm tree0 = some []) :=
  clean_deletes_iff_expired ctx0 tree0 nameArch (by decide)

/-- C9: every name `Clean` hands to `os.Remove` is the bare base name of
a file of the tree — in particular it differs from that name joined with
any non-empty mirror directory path. -/
theorem clean_remove_key_is_bare_name (ctx : CleanCtx) (tree : List Entry) (L : List Str)
    (k : Str) (hL : walkList ctx (fun _ => true) tree = some L) (hk : k ∈ L) :
    k ∈ filesOfList tree ∧ ∀ dir : Str, dir ≠ [] → k ≠ joinPath dir k := by
  rw [walkList_eq] at hL
  have hL2 : (filesOfList tree).filter (cleanPred ctx) = L := by
    injection hL
  subst hL2
  refine ⟨List.mem_of_mem_filter hk, fun dir hdir heq => ?_⟩
  have hlen := congrArg List.length heq
  simp [joinPath] at hlen
  omega

/-- C9 witness: the removal key for the concrete nested archive is the
bare name `archive-2020-01-02T03-04-05.006.log`, never that name
joined under a directory path. -/
theorem clean_remove_key_is_bare_name_w :
    nameArch ∈ filesOfList tree0 ∧ ∀ dir : Str, dir ≠ [] → nameArch ≠ joinPath dir nameArch :=
  clean_remove_key_is_bare_name ctx0 tree0 [nameArch] nameArch
    (by rw [walkList_eq]; simp only [tree0, filesOfList]; simp only [List.append_nil]; decide)
    (by decide)

end LogPortal
